import Mathlib

/-!
# Verification of pi-caffeinate (keep-awake lifecycle controller)

Shallow embedding of `src/index.ts`, which contains two variants of the
extension:

* a cross-platform variant (macOS / Linux / Windows) built around
  `inhibitCommand()`, a module-local `proc` handle, `engage`, `disengage`,
  a `process.on("exit")` safety net, and `pi.on` handlers for
  `agent_start` / `agent_end` / `session_shutdown`;
* a macOS-only variant (after the document separator) that additionally
  publishes a `"caffeinate"` status entry (`☕ awake`) to the UI.

The embedding models the module state (`proc : Option Nat`, a fresh-pid
counter) together with the environment the Node runtime provides: the set
of actually-running helper processes (`live`) and the queue of exit/error
callbacks that have fired at the OS level but have not yet been delivered
to JavaScript (`pending`).  Both the `error` and `exit` callbacks in the
source have the same body (`proc = null`, unguarded by pid), so a single
`deliverExit` event delivers either.  A failed spawn (`ok = false`) is a
child that never becomes live and whose `error` callback is queued, which
is exactly Node's behaviour for a missing binary.  Spawns and kills are
recorded in an `Action` trace so that counting claims can be stated.
-/

/-- The two ChildProcess events the source registers listeners for (or
fails to).  Node's EventEmitter treats them differently when no listener
is registered: an unlistened `exit` is simply dropped, but an unlistened
`error` is thrown as an uncaught exception that escapes to the host. -/
inductive ChildEvent where
  | error
  | exit
  deriving Repr, DecidableEq

namespace Caffeinate

/-- The command/args record returned by `inhibitCommand()` in the source
(`{ cmd: string; args: string[] }`). -/
structure Command where
  cmd : String
  args : List String
  deriving Repr, DecidableEq

/-- The `-Command` pieces of the Windows PowerShell invocation, joined with
spaces in the source (`[...].join(" ")`). -/
def winCommandPieces : List String :=
  [ "Add-Type -MemberDefinition",
    "'[DllImport(\"kernel32.dll\")] public static extern uint SetThreadExecutionState(uint esFlags);'",
    "-Name NativeMethods -Namespace Win32;",
    "[Win32.NativeMethods]::SetThreadExecutionState(0x80000001);",
    "[Threading.Thread]::Sleep([Threading.Timeout]::Infinite)" ]

/-- `inhibitCommand()` from `src/index.ts` (cross-platform variant):
platform-specific keep-awake command, or `none` when the platform is
unsupported.  The platform is the string returned by `os.platform()`. -/
def inhibitCommand (plat : String) : Option Command :=
  match plat with
  | "darwin" => some { cmd := "caffeinate", args := ["-i"] }
  | "linux" =>
      some { cmd := "systemd-inhibit",
             args := [ "--what=idle",
                       "--who=pi-caffeinate",
                       "--why=Keeping machine awake for Pi agent",
                       "--mode=block",
                       "sleep",
                       "infinity" ] }
  | "win32" =>
      some { cmd := "powershell.exe",
             args := [ "-NoProfile", "-NoLogo", "-WindowStyle", "Hidden",
                       "-Command", String.intercalate " " winCommandPieces ] }
  | _ => none

/-- Observable process-level effects of the controller. -/
inductive Action where
  | spawn (cmd : String) (args : List String) (pid : Nat)
  | kill (pid : Nat)
  deriving Repr, DecidableEq

/-- Combined state: the module-local `proc` variable of the source plus the
environment (running helpers, undelivered exit/error callbacks, fresh-pid
supply). -/
structure World where
  /-- the `let proc: ChildProcess | null` module variable -/
  proc : Option Nat
  /-- fresh pid supply for `spawn` -/
  nextPid : Nat
  /-- pids of helper processes that are actually running -/
  live : List Nat
  /-- pids whose `exit`/`error` callback has fired but not yet been delivered -/
  pending : List Nat
  deriving Repr, DecidableEq

/-- State before any signal: no handle, no helper. -/
def initWorld : World := { proc := none, nextPid := 0, live := [], pending := [] }

/-- `engage()` from the cross-platform variant.  `if (proc) return` guards
re-entry; otherwise `spawn(command.cmd, command.args, ...)` is called and
`proc` is assigned the new child.  `ok` says whether the OS launch
succeeds: on failure the child never runs and its `error` callback
(body `proc = null`) is queued for later delivery. -/
def engage (cmd : Command) (ok : Bool) (w : World) : World × List Action :=
  match w.proc with
  | some _ => (w, [])
  | none =>
      ({ proc := some w.nextPid,
         nextPid := w.nextPid + 1,
         live := if ok then w.nextPid :: w.live else w.live,
         pending := if ok then w.pending else w.nextPid :: w.pending },
       [Action.spawn cmd.cmd cmd.args w.nextPid])

/-- `disengage()` from the cross-platform variant: `if (!proc) return;
proc.kill(); proc = null;`.  Killing a running helper terminates it, which
queues its `exit` callback; killing an already-dead child is a no-op at
the OS level but the `kill` call still happens. -/
def disengage (w : World) : World × List Action :=
  match w.proc with
  | none => (w, [])
  | some p =>
      ({ w with
           proc := none,
           live := w.live.erase p,
           pending := if p ∈ w.live then p :: w.pending else w.pending },
       [Action.kill p])

/-- Body shared by `proc.on("error", ...)` and `proc.on("exit", ...)`:
`proc = null`, with no check that the callback belongs to the currently
tracked child. -/
def exitHandler (w : World) : World := { w with proc := none }

/-- The `process.on("exit", () => { disengage(); })` safety net. -/
def onHostExit (w : World) : World × List Action := disengage w

/-- Events driving the controller, delivered serially (one at a time):
the three `pi.on` lifecycle signals and the two environment events
(a live helper dying on its own, and the event loop delivering a queued
`exit`/`error` callback). -/
inductive Event where
  | agentStart (ok : Bool)
  | agentEnd
  | sessionShutdown
  | helperDies (pid : Nat)
  | deliverExit (pid : Nat)
  deriving Repr, DecidableEq

/-- One event handled by the wired-up extension
(`pi.on("agent_start"/"agent_end"/"session_shutdown", ...)` plus the
environment transitions). -/
def step (cmd : Command) (w : World) : Event → World × List Action
  | Event.agentStart ok => engage cmd ok w
  | Event.agentEnd => disengage w
  | Event.sessionShutdown => disengage w
  | Event.helperDies p =>
      if p ∈ w.live then
        ({ w with
             live := w.live.erase p,
             pending := p :: w.pending }, [])
      else (w, [])
  | Event.deliverExit p =>
      if p ∈ w.pending then
        ({ exitHandler w with pending := w.pending.erase p }, [])
      else (w, [])

/-- Run a serial event sequence, accumulating the action trace. -/
def run (cmd : Command) : World → List Event → World × List Action
  | w, [] => (w, [])
  | w, e :: es =>
      let s := step cmd w e
      let r := run cmd s.1 es
      (r.1, s.2 ++ r.2)

/-- The whole default export of the cross-platform variant: if
`inhibitCommand()` is `null` it registers nothing (permanent no-op),
otherwise the handlers above process the events. -/
def runExtension (plat : String) (events : List Event) : List Action :=
  match inhibitCommand plat with
  | none => []
  | some c => (run c initWorld events).2

/-- Prompt-delivery discipline: a queued exit callback is delivered only
while the handle is clear or still points at the pid that died. -/
def promptOk (w : World) : Event → Bool
  | Event.deliverExit p =>
      match w.proc with
      | none => true
      | some q => q == p
  | _ => true

/-- Run a sequence, failing (`none`) as soon as an exit callback would be
delivered stale (after a different helper has been spawned). -/
def runPrompt (cmd : Command) : World → List Event → Option World
  | w, [] => some w
  | w, e :: es =>
      if promptOk w e then runPrompt cmd (step cmd w e).1 es else none

/-- The darwin command spec, used as a concrete instance in witnesses. -/
def cafCmd : Command := { cmd := "caffeinate", args := ["-i"] }

/-- Emitter-level view of delivering a ChildProcess event in the
cross-platform variant.  `engage` registers listeners for both events —
`proc.on("error", ...)` and `proc.on("exit", ...)` — with the same body
`proc = null` (`exitHandler`), so every delivery is handled and nothing is
ever rethrown to the host (the result is never `none`).  This is why the
queue-level `Event.deliverExit` transition above covers both callbacks. -/
def deliverChild (w : World) (e : ChildEvent) : Option World :=
  match e with
  | ChildEvent.error => some (exitHandler w)
  | ChildEvent.exit => some (exitHandler w)

end Caffeinate

namespace MacOnly

/-!
The macOS-only variant (second document in `src/index.ts`).  It hardcodes
`spawn("caffeinate", ["-i"], ...)`, registers only an `exit` callback
(`proc = null`), and additionally drives a UI status entry:
`ctx.ui.setStatus("caffeinate", theme.fg("dim", "☕ awake"))` at the end of
a successful `engage`, and `ctx.ui.setStatus("caffeinate", undefined)` in
`disengage` — placed after (outside) the `if (proc)` guard.  The theme's
rendering function `theme.fg` is an opaque parameter `fg`.
-/

/-- Observable effects of the macOS-only variant; `setStatus key none`
models `setStatus(key, undefined)` (clear). -/
inductive Action where
  | spawn (cmd : String) (args : List String) (pid : Nat)
  | kill (pid : Nat) (signal : String)
  | setStatus (key : String) (text : Option String)
  deriving Repr, DecidableEq

/-- Module state of the macOS-only variant plus its environment; `status`
is the current `"caffeinate"` entry of the UI status surface. -/
structure World where
  proc : Option Nat
  nextPid : Nat
  status : Option String
  live : List Nat
  pending : List Nat
  deriving Repr, DecidableEq

/-- Initial state: no handle, no helper, no status entry. -/
def initWorld : World :=
  { proc := none, nextPid := 0, status := none, live := [], pending := [] }

/-- `engage(ctx)` of the macOS-only variant: guarded by `if (proc) return`,
spawns `caffeinate -i`, registers the `exit` callback, then publishes the
`☕ awake` indicator rendered through the theme (`fg`). -/
def engage (fg : String → String → String) (w : World) : World × List Action :=
  match w.proc with
  | some _ => (w, [])
  | none =>
      ({ proc := some w.nextPid,
         nextPid := w.nextPid + 1,
         status := some (fg "dim" "☕ awake"),
         live := w.nextPid :: w.live,
         pending := w.pending },
       [Action.spawn "caffeinate" ["-i"] w.nextPid,
        Action.setStatus "caffeinate" (some (fg "dim" "☕ awake"))])

/-- `disengage(ctx)` of the macOS-only variant: kills with `SIGTERM` only
when a handle is live, but clears the status entry unconditionally (the
`setStatus` call sits outside the `if (proc)` block). -/
def disengage (w : World) : World × List Action :=
  match w.proc with
  | none =>
      ({ w with status := none }, [Action.setStatus "caffeinate" none])
  | some p =>
      ({ w with
           proc := none,
           status := none,
           live := w.live.erase p,
           pending := if p ∈ w.live then p :: w.pending else w.pending },
       [Action.kill p "SIGTERM", Action.setStatus "caffeinate" none])

/-- The `proc.on("exit", () => { proc = null })` callback body: it clears
the handle but does not touch the status entry. -/
def exitHandler (w : World) : World := { w with proc := none }

/-- Serial events for the macOS-only variant (the three `pi.on` signals and
the environment transitions). -/
inductive Event where
  | agentStart
  | agentEnd
  | sessionShutdown
  | helperDies (pid : Nat)
  | deliverExit (pid : Nat)
  deriving Repr, DecidableEq

/-- One event handled by the macOS-only variant's wiring. -/
def step (fg : String → String → String) (w : World) : Event → World × List Action
  | Event.agentStart => engage fg w
  | Event.agentEnd => disengage w
  | Event.sessionShutdown => disengage w
  | Event.helperDies p =>
      if p ∈ w.live then
        ({ w with
             live := w.live.erase p,
             pending := p :: w.pending }, [])
      else (w, [])
  | Event.deliverExit p =>
      if p ∈ w.pending then
        ({ exitHandler w with pending := w.pending.erase p }, [])
      else (w, [])

/-- Run a serial event sequence, accumulating the action trace. -/
def run (fg : String → String → String) : World → List Event → World × List Action
  | w, [] => (w, [])
  | w, e :: es =>
      let s := step fg w e
      let r := run fg s.1 es
      (r.1, s.2 ++ r.2)

/-- The default export: `if (platform() !== "darwin") return;` — nothing is
registered off macOS. -/
def runExtension (plat : String) (fg : String → String → String)
    (events : List Event) : List Action :=
  if plat = "darwin" then (run fg initWorld events).2 else []

/-- A concrete theme rendering, for witnesses and counterexamples: renders
the text unchanged. -/
def fgId : String → String → String := fun _ t => t

/-- Engage, then the helper dies on its own and its exit callback is
delivered: the controller is back to IDLE without any disengage call. -/
def c9Trace : List Event :=
  [Event.agentStart, Event.helperDies 0, Event.deliverExit 0]

/-- Emitter-level view of delivering a ChildProcess event in the
macOS-only variant.  Its `engage` registers a listener only for `exit`
(`proc.on("exit", () => { proc = null })`); there is no
`proc.on("error", ...)` anywhere in this variant, so when the child emits
`error` (e.g. the binary could not be launched) Node's EventEmitter throws
it as an uncaught exception that escapes to the host — modelled as `none`. -/
def deliverChild (w : World) (e : ChildEvent) : Option World :=
  match e with
  | ChildEvent.exit => some (exitHandler w)
  | ChildEvent.error => none

/-- The macOS-only `engage` on a call where the OS fails to launch the
child: `spawn` still returns a `ChildProcess` object and `proc` is
assigned it, the `exit` listener is registered and the status glyph is
still published, but the child never runs (it is never live) and will
emit `error` — which this variant has no listener for. -/
def engageSpawnFail (fg : String → String → String) (w : World) :
    World × List Action :=
  match w.proc with
  | some _ => (w, [])
  | none =>
      ({ proc := some w.nextPid,
         nextPid := w.nextPid + 1,
         status := some (fg "dim" "☕ awake"),
         live := w.live,
         pending := w.pending },
       [Action.spawn "caffeinate" ["-i"] w.nextPid,
        Action.setStatus "caffeinate" (some (fg "dim" "☕ awake"))])

/-- The macOS-only variant registers no `process.on("exit")` hook (its
only shutdown paths are the `agent_end` and `session_shutdown` signals),
so at uncontrolled host termination no handler runs: the state is
untouched and no termination call is issued.  The child was `unref()`ed
at spawn time, so it does not block the host's exit and is simply left
running. -/
def onHostExit (w : World) : World × List Action := (w, [])

end MacOnly

namespace Caffeinate

/-- Inductive invariant of the cross-platform controller under prompt
delivery of exit callbacks: the live helpers are exactly the tracked one
(or none), pending callbacks belong to dead pids, and all allocated pids
are below the fresh-pid counter. -/
def Inv (w : World) : Prop :=
  (w.live = [] ∨ ∃ p, w.proc = some p ∧ w.live = [p]) ∧
  (∀ p, p ∈ w.pending → p ∉ w.live) ∧
  (∀ p, p ∈ w.pending → p < w.nextPid) ∧
  (∀ p, p ∈ w.live → p < w.nextPid)

/-- Signal sequence exhibiting the stale-exit race: engage, disengage,
engage again, then the first helper's queued exit callback is delivered
(nulling the handle while helper 1 runs), then one more engage. -/
def c1Trace : List Event :=
  [Event.agentStart true, Event.agentEnd, Event.agentStart true,
   Event.deliverExit 0, Event.agentStart true]

/-- The state reached from `initWorld` by one successful engage. -/
def w1Ex : World := { proc := some 0, nextPid := 1, live := [0], pending := [] }

/-- The signals wired to `disengage`: `agent_end` and `session_shutdown`. -/
def isDisengageSignal : Event → Bool
  | Event.agentEnd => true
  | Event.sessionShutdown => true
  | _ => false

theorem Inv_initWorld : Inv initWorld := by
  refine ⟨Or.inl rfl, ?_, ?_, ?_⟩ <;> intro p hp <;> simp [initWorld] at hp

theorem Inv_disengage (w : World) (h : Inv w) : Inv (disengage w).1 := by
  obtain ⟨hlive, hdisj, hpfresh, hlfresh⟩ := h
  cases hw : w.proc with
  | none =>
      simp only [disengage, hw]
      exact ⟨hlive, hdisj, hpfresh, hlfresh⟩
  | some p =>
      rcases hlive with h1 | ⟨q, hq, hql⟩
      · simp only [disengage, hw, h1]
        refine ⟨Or.inl (by simp), ?_, ?_, ?_⟩
        · intro x hx
          simp
        · intro x hx
          simp only [List.not_mem_nil, if_neg, h1] at hx
          simp at hx
          exact hpfresh x hx
        · intro x hx
          simp at hx
      · rw [hw] at hq
        have hpq : p = q := by
          injection hq
        subst hpq
        simp only [disengage, hw, hql]
        refine ⟨Or.inl (by simp), ?_, ?_, ?_⟩
        · intro x hx
          simp
        · intro x hx
          simp at hx
          rcases hx with hx | hx
          · subst hx
            exact hlfresh x (by simp [hql])
          · exact hpfresh x hx
        · intro x hx
          simp at hx

theorem Inv_step (cmd : Command) (w : World) (e : Event)
    (h : Inv w) (hp : promptOk w e = true) : Inv (step cmd w e).1 := by
  obtain ⟨hlive, hdisj, hpfresh, hlfresh⟩ := h
  cases e with
  | agentStart ok =>
      cases hw : w.proc with
      | some p =>
          simp only [step, engage, hw]
          exact ⟨hlive, hdisj, hpfresh, hlfresh⟩
      | none =>
          have hl : w.live = [] := by
            rcases hlive with h1 | ⟨q, hq, _⟩
            · exact h1
            · simp [hw] at hq
          simp only [step, engage, hw]
          cases ok with
          | true =>
              refine ⟨Or.inr ⟨w.nextPid, rfl, by simp [hl]⟩, ?_, ?_, ?_⟩
              · intro x hx
                simp [hl] at hx ⊢
                have := hpfresh x hx
                omega
              · intro x hx
                simp [hl] at hx ⊢
                have := hpfresh x hx
                omega
              · intro x hx
                simp [hl] at hx ⊢
                omega
          | false =>
              refine ⟨Or.inl (by simp [hl]), ?_, ?_, ?_⟩
              · intro x hx
                simp [hl]
              · intro x hx
                simp [hl] at hx ⊢
                rcases hx with hx | hx
                · omega
                · have := hpfresh x hx
                  omega
              · intro x hx
                simp [hl] at hx
  | agentEnd => exact Inv_disengage w ⟨hlive, hdisj, hpfresh, hlfresh⟩
  | sessionShutdown => exact Inv_disengage w ⟨hlive, hdisj, hpfresh, hlfresh⟩
  | helperDies p =>
      by_cases hpl : p ∈ w.live
      · rcases hlive with h1 | ⟨q, hq, hql⟩
        · rw [h1] at hpl
          simp at hpl
        · have hpq : p = q := by
            rw [hql] at hpl
            simpa using hpl
          subst hpq
          simp only [step, if_pos hpl]
          refine ⟨Or.inl (by simp [hql]), ?_, ?_, ?_⟩
          · intro x hx
            simp [hql]
          · intro x hx
            simp at hx
            rcases hx with hx | hx
            · subst hx
              exact hlfresh x (by simp [hql])
            · exact hpfresh x hx
          · intro x hx
            simp [hql] at hx
      · simp only [step, if_neg hpl]
        exact ⟨hlive, hdisj, hpfresh, hlfresh⟩
  | deliverExit p =>
      by_cases hpp : p ∈ w.pending
      · have hl : w.live = [] := by
          rcases hlive with h1 | ⟨q, hq, hql⟩
          · exact h1
          · exfalso
            simp only [promptOk, hq] at hp
            have hqp : q = p := by simpa using hp
            subst hqp
            exact hdisj q hpp (by simp [hql])
        simp only [step, if_pos hpp, exitHandler]
        refine ⟨Or.inl hl, ?_, ?_, ?_⟩
        · intro x hx
          exact hdisj x (List.mem_of_mem_erase hx)
        · intro x hx
          exact hpfresh x (List.mem_of_mem_erase hx)
        · intro x hx
          exact hlfresh x hx
      · simp only [step, if_neg hpp]
        exact ⟨hlive, hdisj, hpfresh, hlfresh⟩

theorem Inv_runPrompt (cmd : Command) (es : List Event) (w w' : World)
    (h : Inv w) (hr : runPrompt cmd w es = some w') : Inv w' := by
  induction es generalizing w with
  | nil =>
      rw [runPrompt] at hr
      cases hr
      exact h
  | cons e es ih =>
      rw [runPrompt] at hr
      cases hpe : promptOk w e with
      | false =>
          rw [hpe] at hr
          simp at hr
      | true =>
          rw [hpe] at hr
          simp only [if_pos] at hr
          exact ih (step cmd w e).1 (Inv_step cmd w e h hpe) hr

/-- C1 counterexample: as stated the claim is false.  Along the concrete
signal sequence `c1Trace` — engage, disengage, engage, then the first
(killed) helper's exit notification arrives after the second helper has
been spawned, then one more `work-started` — the unguarded `proc = null`
in the exit callback clears the handle while helper 1 is still running,
so the final engage spawns helper 2 and two helpers are live at once. -/
theorem c1_live_bound_counterexample :
    (run cafCmd initWorld c1Trace).1.live = [2, 1] ∧
    ¬ (run cafCmd initWorld c1Trace).1.live.length ≤ 1 := by
  decide

/-- C1 (amended): for every serial sequence of `work-started`/`work-ended`
signals in which each helper's exit notification is delivered only while
the handle is clear or still points at that helper (prompt delivery — in
particular, never after a different helper has been spawned), the number
of live helper processes is always 0 or 1; and engage while a handle is
live is an idempotent no-op that spawns nothing.  Without the prompt-
delivery restriction the bound fails (see the counterexample). -/
theorem c1_live_bound_amended (cmd : Command) (es : List Event) (w' : World)
    (hrun : runPrompt cmd initWorld es = some w') :
    w'.live.length ≤ 1 ∧
    (∀ (v : World) (p : Nat) (ok : Bool), v.proc = some p →
        step cmd v (Event.agentStart ok) = (v, [])) := by
  constructor
  · have h := Inv_runPrompt cmd es initWorld w' Inv_initWorld hrun
    rcases h.1 with h1 | ⟨p, _, h2⟩
    · simp [h1]
    · simp [h2]
  · intro v p ok hv
    simp [step, engage, hv]

theorem c1_live_bound_witness :
    w1Ex.live.length ≤ 1 ∧
    (∀ (v : World) (p : Nat) (ok : Bool), v.proc = some p →
        step cafCmd v (Event.agentStart ok) = (v, [])) :=
  c1_live_bound_amended cafCmd [Event.agentStart true] w1Ex (by decide)

/-- C4: for the signal sequence `[work-started, work-ended]` with the
platform's resolved command, exactly one spawn with that command and
argument list occurs, followed by exactly one termination call targeting
the same pid, and the controller ends IDLE (no handle, no live helper). -/
theorem c4_start_end_cycle (plat : String) (c : Command)
    (_h : inhibitCommand plat = some c) :
    (run c initWorld [Event.agentStart true, Event.agentEnd]).2
      = [Action.spawn c.cmd c.args 0, Action.kill 0] ∧
    (run c initWorld [Event.agentStart true, Event.agentEnd]).1.proc = none ∧
    (run c initWorld [Event.agentStart true, Event.agentEnd]).1.live = [] := by
  simp [run, step, engage, disengage, initWorld]

theorem c4_start_end_cycle_witness :
    (run cafCmd initWorld [Event.agentStart true, Event.agentEnd]).2
      = [Action.spawn cafCmd.cmd cafCmd.args 0, Action.kill 0] ∧
    (run cafCmd initWorld [Event.agentStart true, Event.agentEnd]).1.proc = none ∧
    (run cafCmd initWorld [Event.agentStart true, Event.agentEnd]).1.live = [] :=
  c4_start_end_cycle "darwin" cafCmd (by decide)

/-- C5: if the helper dies on its own while ACTIVE, delivering its exit
callback clears the handle without any `disengage` call, neither the death
nor the callback spawns anything (no automatic restart), and a subsequent
`work-started` spawns a fresh helper with a pid different from the dead
one. -/
theorem c5_self_exit_clears_then_respawn (cmd : Command) (w : World) (p : Nat)
    (h1 : w.proc = some p) (h2 : p ∈ w.live) (h3 : p < w.nextPid) :
    (step cmd w (Event.helperDies p)).2 = [] ∧
    (step cmd (step cmd w (Event.helperDies p)).1 (Event.deliverExit p)).2 = [] ∧
    (step cmd (step cmd w (Event.helperDies p)).1 (Event.deliverExit p)).1.proc
      = none ∧
    (step cmd (step cmd (step cmd w (Event.helperDies p)).1 (Event.deliverExit p)).1
        (Event.agentStart true)).2 = [Action.spawn cmd.cmd cmd.args w.nextPid] ∧
    (step cmd (step cmd (step cmd w (Event.helperDies p)).1 (Event.deliverExit p)).1
        (Event.agentStart true)).1.proc = some w.nextPid ∧
    w.nextPid ≠ p := by
  refine ⟨?_, ?_, ?_, ?_, ?_, ?_⟩
  · simp [step, engage, exitHandler, h1, h2]
  · simp [step, engage, exitHandler, h1, h2]
  · simp [step, engage, exitHandler, h1, h2]
  · simp [step, engage, exitHandler, h1, h2]
  · simp [step, engage, exitHandler, h1, h2]
  · omega

theorem c5_self_exit_witness :
    (step cafCmd w1Ex (Event.helperDies 0)).2 = [] ∧
    (step cafCmd (step cafCmd w1Ex (Event.helperDies 0)).1 (Event.deliverExit 0)).2
      = [] ∧
    (step cafCmd (step cafCmd w1Ex (Event.helperDies 0)).1 (Event.deliverExit 0)).1.proc
      = none ∧
    (step cafCmd
        (step cafCmd (step cafCmd w1Ex (Event.helperDies 0)).1 (Event.deliverExit 0)).1
        (Event.agentStart true)).2 = [Action.spawn cafCmd.cmd cafCmd.args w1Ex.nextPid] ∧
    (step cafCmd
        (step cafCmd (step cafCmd w1Ex (Event.helperDies 0)).1 (Event.deliverExit 0)).1
        (Event.agentStart true)).1.proc = some w1Ex.nextPid ∧
    w1Ex.nextPid ≠ 0 :=
  c5_self_exit_clears_then_respawn cafCmd w1Ex 0 rfl (by decide) (by decide)

/-- C6: on a platform for which the resolver returns none, the default
export returns before registering anything, so the extension is a
permanent no-op: any number of signals produces no actions at all (in
particular zero spawns), and every transition is a total function (nothing
is thrown). -/
theorem c6_unsupported_platform_noop (plat : String) (events : List Event)
    (h : inhibitCommand plat = none) :
    runExtension plat events = [] := by
  simp [runExtension, h]

theorem c6_unsupported_platform_witness :
    runExtension "freebsd"
      [Event.agentStart true, Event.agentEnd, Event.agentStart true,
       Event.sessionShutdown] = [] :=
  c6_unsupported_platform_noop "freebsd" _ (by decide)

/-- C7: calling the disengage paths while IDLE is an idempotent no-op:
any sequence made of `work-ended` and `process-shutting-down` signals, in
any order, leaves the state exactly unchanged and performs no action (no
spawn, no kill), and the termination hook is likewise a no-op when IDLE. -/
theorem c7_idle_disengage_noop (cmd : Command) (w : World) (es : List Event)
    (h : w.proc = none) (hes : es.all isDisengageSignal = true) :
    run cmd w es = (w, []) ∧ onHostExit w = (w, []) := by
  constructor
  · induction es with
    | nil => rfl
    | cons e es ih =>
        rw [List.all_cons, Bool.and_eq_true] at hes
        obtain ⟨he, hes2⟩ := hes
        have hstep : step cmd w e = (w, []) := by
          cases e with
          | agentEnd => simp [step, disengage, h]
          | sessionShutdown => simp [step, disengage, h]
          | agentStart ok => simp [isDisengageSignal] at he
          | helperDies p => simp [isDisengageSignal] at he
          | deliverExit p => simp [isDisengageSignal] at he
        simp only [run, hstep]
        simp [ih hes2]
  · simp [onHostExit, disengage, h]

theorem c7_idle_disengage_witness :
    run cafCmd initWorld
      [Event.agentEnd, Event.sessionShutdown, Event.agentEnd] = (initWorld, []) ∧
    onHostExit initWorld = (initWorld, []) :=
  c7_idle_disengage_noop cafCmd initWorld
    [Event.agentEnd, Event.sessionShutdown, Event.agentEnd] rfl (by decide)

/-- C8: the resolved Linux mechanism is scoped to idle only — its argument
list carries `--what=idle` and none of the wider inhibition scopes (no
suspend/sleep lock, no shutdown lock, no lid-switch lock) — and no
platform's resolved command touches display sleep: macOS gets exactly
`caffeinate -i` (idle assertion; not `-d`, the display assertion, nor
`-s`), and the Windows PowerShell body requests
`SetThreadExecutionState(0x80000001)`, i.e. `ES_CONTINUOUS (0x80000000)
||| ES_SYSTEM_REQUIRED (1)` with the `ES_DISPLAY_REQUIRED (2)` bit clear. -/
theorem c8_idle_scope_only :
    inhibitCommand "linux"
      = some { cmd := "systemd-inhibit",
               args := [ "--what=idle", "--who=pi-caffeinate",
                         "--why=Keeping machine awake for Pi agent",
                         "--mode=block", "sleep", "infinity" ] } ∧
    ((inhibitCommand "linux").elim [] Command.args).contains "--what=idle" = true ∧
    ((inhibitCommand "linux").elim [] Command.args).contains "--what=sleep" = false ∧
    ((inhibitCommand "linux").elim [] Command.args).contains "--what=shutdown" = false ∧
    ((inhibitCommand "linux").elim [] Command.args).contains "--what=handle-lid-switch"
      = false ∧
    inhibitCommand "darwin" = some { cmd := "caffeinate", args := ["-i"] } ∧
    ((inhibitCommand "darwin").elim [] Command.args).contains "-d" = false ∧
    ((inhibitCommand "darwin").elim [] Command.args).contains "-s" = false ∧
    winCommandPieces.contains
      "[Win32.NativeMethods]::SetThreadExecutionState(0x80000001);" = true ∧
    (0x80000001 : Nat) = 0x80000000 ||| 0x00000001 ∧
    (0x80000001 : Nat) &&& 0x00000002 = 0 := by
  decide

end Caffeinate

namespace MacOnly

/-- C9 counterexample: as stated the claim is false.  Along `c9Trace`
(engage, then the helper dies on its own and its exit callback runs) the
controller has returned to IDLE — no handle, no live helper — yet the
`"caffeinate"` status entry still shows the awake glyph: the exit callback
only does `proc = null` and never clears the status surface. -/
theorem c9_status_counterexample :
    (run fgId initWorld c9Trace).1.proc = none ∧
    (run fgId initWorld c9Trace).1.live = [] ∧
    (run fgId initWorld c9Trace).1.status = some "☕ awake" := by
  decide

/-- C9 (amended): on every transition into ACTIVE (engage from a clear
handle) the cup/awake glyph rendered through the theme is published to the
status surface, and every `disengage`-driven return to IDLE (work-ended or
process-shutting-down) clears it (text set absent); however, when the
helper exits on its own the exit callback clears only the handle, so the
glyph is not cleared on that return to IDLE until the next disengage (see
the counterexample). -/
theorem c9_status_amended (fg : String → String → String) (w : World)
    (h : w.proc = none) :
    (engage fg w).1.status = some (fg "dim" "☕ awake") ∧
    (engage fg w).2 = [Action.spawn "caffeinate" ["-i"] w.nextPid,
                       Action.setStatus "caffeinate" (some (fg "dim" "☕ awake"))] ∧
    (∀ v : World, (disengage v).1.status = none ∧
        (disengage v).2.getLast? = some (Action.setStatus "caffeinate" none)) := by
  refine ⟨?_, ?_, ?_⟩
  · simp [engage, h]
  · simp [engage, h]
  · intro v
    cases hv : v.proc <;> simp [disengage, hv]

theorem c9_status_witness :
    (engage fgId initWorld).1.status = some (fgId "dim" "☕ awake") ∧
    (engage fgId initWorld).2
      = [Action.spawn "caffeinate" ["-i"] initWorld.nextPid,
         Action.setStatus "caffeinate" (some (fgId "dim" "☕ awake"))] ∧
    (∀ v : World, (disengage v).1.status = none ∧
        (disengage v).2.getLast? = some (Action.setStatus "caffeinate" none)) :=
  c9_status_amended fgId initWorld rfl

/-- C10: in the macOS-only variant every `disengage` call clears the
`"caffeinate"` status entry unconditionally — the `setStatus` sits outside
the `if (proc)` guard — so when the controller is already IDLE the call
performs exactly the clear: no kill, state otherwise untouched. -/
theorem c10_clear_outside_guard (w : World) (h : w.proc = none) :
    disengage w = ({ w with status := none },
                   [Action.setStatus "caffeinate" none]) ∧
    (∀ v : World, (disengage v).1.status = none) := by
  constructor
  · simp [disengage, h]
  · intro v
    cases hv : v.proc <;> simp [disengage, hv]

theorem c10_clear_outside_guard_witness :
    disengage initWorld = ({ initWorld with status := none },
                           [Action.setStatus "caffeinate" none]) ∧
    (∀ v : World, (disengage v).1.status = none) :=
  c10_clear_outside_guard initWorld rfl

end MacOnly

/-- C2 counterexample: as stated — "for every call to start/engage where
the helper binary is missing or fails to launch, no exception propagates
to the host" — the claim is false for the macOS-only variant it cites.
There, a failed-launch engage from the initial state assigns the handle
and marks nothing live, and the child's subsequent `error` event finds no
listener (only `exit` is registered), so it is thrown as an uncaught
exception escaping to the host (`none`) instead of being absorbed. -/
theorem c2_unhandled_error_counterexample :
    (MacOnly.engageSpawnFail MacOnly.fgId MacOnly.initWorld).1.proc = some 0 ∧
    (MacOnly.engageSpawnFail MacOnly.fgId MacOnly.initWorld).1.live = [] ∧
    MacOnly.deliverChild (MacOnly.engageSpawnFail MacOnly.fgId MacOnly.initWorld).1
      ChildEvent.error = none :=
  ⟨rfl, rfl, rfl⟩

/-- C2 (amended): in the cross-platform variant a launch failure is
absorbed at the supervisor boundary — the engage records exactly one spawn
attempt, the failed child is never live, delivering its queued `error`
callback nulls the handle and does nothing else (no retry, handle ends
not-live), and every child event has a registered listener so no exception
ever escapes to the host; the macOS-only variant, however, registers no
`error` listener, so a launch failure there is rethrown to the host as an
uncaught exception (see the counterexample). -/
theorem c2_launch_failure_amended (cmd : Caffeinate.Command)
    (w : Caffeinate.World) (h : w.proc = none) :
    (Caffeinate.engage cmd false w).2
      = [Caffeinate.Action.spawn cmd.cmd cmd.args w.nextPid] ∧
    (Caffeinate.engage cmd false w).1.live = w.live ∧
    (Caffeinate.step cmd (Caffeinate.engage cmd false w).1
        (Caffeinate.Event.deliverExit w.nextPid)).1.proc = none ∧
    (Caffeinate.step cmd (Caffeinate.engage cmd false w).1
        (Caffeinate.Event.deliverExit w.nextPid)).1.live = w.live ∧
    (Caffeinate.step cmd (Caffeinate.engage cmd false w).1
        (Caffeinate.Event.deliverExit w.nextPid)).2 = [] ∧
    (∀ (v : Caffeinate.World) (e : ChildEvent),
        Caffeinate.deliverChild v e = some (Caffeinate.exitHandler v)) ∧
    (∀ v : MacOnly.World, MacOnly.deliverChild v ChildEvent.error = none) := by
  refine ⟨?_, ?_, ?_, ?_, ?_, ?_, ?_⟩
  · simp [Caffeinate.engage, h]
  · simp [Caffeinate.engage, h]
  · simp [Caffeinate.engage, Caffeinate.step, Caffeinate.exitHandler, h]
  · simp [Caffeinate.engage, Caffeinate.step, Caffeinate.exitHandler, h]
  · simp [Caffeinate.engage, Caffeinate.step, Caffeinate.exitHandler, h]
  · intro v e
    cases e <;> rfl
  · intro v
    rfl

theorem c2_launch_failure_amended_witness :
    (Caffeinate.engage Caffeinate.cafCmd false Caffeinate.initWorld).2
      = [Caffeinate.Action.spawn Caffeinate.cafCmd.cmd Caffeinate.cafCmd.args
           Caffeinate.initWorld.nextPid] ∧
    (Caffeinate.engage Caffeinate.cafCmd false Caffeinate.initWorld).1.live
      = Caffeinate.initWorld.live ∧
    (Caffeinate.step Caffeinate.cafCmd
        (Caffeinate.engage Caffeinate.cafCmd false Caffeinate.initWorld).1
        (Caffeinate.Event.deliverExit Caffeinate.initWorld.nextPid)).1.proc = none ∧
    (Caffeinate.step Caffeinate.cafCmd
        (Caffeinate.engage Caffeinate.cafCmd false Caffeinate.initWorld).1
        (Caffeinate.Event.deliverExit Caffeinate.initWorld.nextPid)).1.live
      = Caffeinate.initWorld.live ∧
    (Caffeinate.step Caffeinate.cafCmd
        (Caffeinate.engage Caffeinate.cafCmd false Caffeinate.initWorld).1
        (Caffeinate.Event.deliverExit Caffeinate.initWorld.nextPid)).2 = [] ∧
    (∀ (v : Caffeinate.World) (e : ChildEvent),
        Caffeinate.deliverChild v e = some (Caffeinate.exitHandler v)) ∧
    (∀ v : MacOnly.World, MacOnly.deliverChild v ChildEvent.error = none) :=
  c2_launch_failure_amended Caffeinate.cafCmd Caffeinate.initWorld rfl

/-- C3 counterexample: as stated the claim is false for the macOS-only
variant it cites, which registers no `process.on("exit")` hook.  In the
concrete scenario — `[work-started]` then abrupt host exit — that variant
issues no termination call at all (empty action trace, not exactly one)
and the `caffeinate` helper spawned by the work-started signal is left
running. -/
theorem c3_no_exit_hook_counterexample :
    (MacOnly.onHostExit
        (MacOnly.run MacOnly.fgId MacOnly.initWorld [MacOnly.Event.agentStart]).1).2
      = [] ∧
    (MacOnly.onHostExit
        (MacOnly.run MacOnly.fgId MacOnly.initWorld [MacOnly.Event.agentStart]).1).1.live
      = [0] :=
  ⟨rfl, rfl⟩

/-- C3 (amended): in the cross-platform variant the `process.on("exit")`
hook is exactly a call to `disengage` (stop) from whatever state the
controller is in, and in the scenario `[work-started]` then abrupt host
exit it issues exactly one termination call, on the live helper, ending
with no handle; the macOS-only variant registers no termination-time hook,
so at uncontrolled host termination it runs nothing — no state change and
no termination call (see the counterexample). -/
theorem c3_exit_hook_amended (cmd : Caffeinate.Command) :
    (∀ w, Caffeinate.onHostExit w = Caffeinate.disengage w) ∧
    (Caffeinate.onHostExit
        (Caffeinate.run cmd Caffeinate.initWorld
          [Caffeinate.Event.agentStart true]).1).2 = [Caffeinate.Action.kill 0] ∧
    (Caffeinate.onHostExit
        (Caffeinate.run cmd Caffeinate.initWorld
          [Caffeinate.Event.agentStart true]).1).1.proc = none ∧
    (∀ v : MacOnly.World, MacOnly.onHostExit v = (v, [])) := by
  refine ⟨fun w => rfl, ?_, ?_, fun v => rfl⟩
  · simp [Caffeinate.run, Caffeinate.step, Caffeinate.engage, Caffeinate.disengage,
          Caffeinate.onHostExit, Caffeinate.initWorld]
  · simp [Caffeinate.run, Caffeinate.step, Caffeinate.engage, Caffeinate.disengage,
          Caffeinate.onHostExit, Caffeinate.initWorld]
